import Mathlib

/-!
Verification of the ICMP Echo engine of a ping-style command-line tool.

The development shallowly embeds the Rust sources:
  * `src/ping/src/icmp/mod.rs`       — Internet checksum (`get_checksum`, `write_checksum`)
  * `src/ping/src/icmp/echo.rs`      — `EchoRequest::encode`, `EchoReply::decode`
  * `src/ping/src/icmp/timestamp.rs` — `TimestampReply::decode`, `Timestamp::from_bytes`
  * `src/ping/src/icmp/error.rs`     — `DecodeError`
  * `src/ping/src/ip.rs`             — `IpV4Packet::decode`
  * `src/ping/src/app.rs`            — the statistics accumulator of `PingApp::run`

Machine integers are embedded as `Nat` with explicit `% 2^w` where wrap-around
matters (the u32 checksum accumulator uses `wrapping_add`).  Byte buffers are
`List Nat`; a byte value is a `Nat` (hypotheses `< 256` are carried where the
statement needs them).  Fallible operations return `Except`; operations whose
Rust counterpart can panic (out-of-bounds slice indexing) return `Option`,
with `none` standing for the panic.
-/

/-- `DecodeError` from `src/ping/src/icmp/error.rs`. -/
inductive DecodeError where
  | invalidSize
  | invalidPacket
deriving DecidableEq, Repr

/-- The four constants of the `Echo` trait (`src/ping/src/icmp/echo.rs`).
Rust dispatches them statically per protocol marker type; here a structure
value carries them. -/
structure Echo where
  REQUEST_TYPE : Nat
  REQUEST_CODE : Nat
  REPLY_TYPE : Nat
  REPLY_CODE : Nat
deriving DecidableEq, Repr

/-- `impl Echo for IcmpV4`: request type 8, request code 0, reply type 0, reply code 0. -/
def icmpV4 : Echo := ⟨8, 0, 0, 0⟩

/-- `impl Echo for IcmpV6`: request type 128, request code 0, reply type 129, reply code 0. -/
def icmpV6 : Echo := ⟨128, 0, 129, 0⟩

/-- `HEADER_SIZE` from `src/ping/src/icmp/mod.rs`. -/
def HEADER_SIZE : Nat := 8

/-- The 16-bit big-endian words of a byte buffer, as produced by
`buffer.chunks(2)` in `get_checksum`: `part = (word[0] << 8) + word[1]`,
a trailing odd byte being the high byte of a word with low byte 0. -/
def toWords : List Nat → List Nat
  | [] => []
  | [a] => [a * 256]
  | a :: b :: rest => (a * 256 + b) :: toWords rest

/-- The u32 accumulation `sum = sum.wrapping_add(u32::from(part))` of
`get_checksum`, i.e. addition modulo `2^32`. -/
def wrapSum (words : List Nat) : Nat :=
  words.foldl (fun s w => (s + w) % 4294967296) 0

/-- The carry-folding loop of `get_checksum`:
`while (sum >> 16) > 0 { sum = (sum & 0xffff) + (sum >> 16); }`.
For natural numbers `sum >> 16 = sum / 65536` and `sum & 0xffff = sum % 65536`. -/
def fold16 (sum : Nat) : Nat :=
  if h : 65536 ≤ sum then fold16 (sum % 65536 + sum / 65536) else sum
termination_by sum
decreasing_by omega

/-- `get_checksum` from `src/ping/src/icmp/mod.rs`: fold the wrapped 32-bit
one's-complement sum, then `!sum as u16` (bitwise u32 complement truncated
to 16 bits). -/
def get_checksum (buffer : List Nat) : Nat :=
  (4294967295 - fold16 (wrapSum (toWords buffer))) % 65536

/-- `write_checksum` from `src/ping/src/icmp/mod.rs`:
`buffer[2] = (sum >> 8) as u8; buffer[3] = (sum & 0xff) as u8`. -/
def write_checksum (buffer : List Nat) : List Nat :=
  ((buffer.set 2 (get_checksum buffer / 256)).set 3 (get_checksum buffer % 256))

/-- `EchoRequest` (`src/ping/src/icmp/echo.rs`): `ident: u16`, `seq_cnt: u16`,
`payload: &[u8]`. -/
structure EchoRequest where
  ident : Nat
  seq_cnt : Nat
  payload : List Nat
deriving DecidableEq, Repr

/-- `EchoReply` (`src/ping/src/icmp/echo.rs`). -/
structure EchoReply where
  ident : Nat
  seq_cnt : Nat
  payload : List Nat
deriving DecidableEq, Repr

/-- Overwrite the bytes of `l` starting at index `i` with the bytes of `src`
(the effect of `clone_from_slice` / `Write::write` on a mutable slice). -/
def writeRange : Nat → List Nat → List Nat → List Nat
  | _, [], l => l
  | i, s :: ss, l => writeRange (i + 1) ss (l.set i s)

/-- The two big-endian bytes of a u16 value (`u16::to_be_bytes`). -/
def beBytes2 (n : Nat) : List Nat := [n / 256 % 256, n % 256]

/-- `EchoRequest::encode` (`src/ping/src/icmp/echo.rs`).  Writes type/code at
bytes 0–1, identifier at 4–5, sequence at 6–7, then copies the payload via
`(&mut buffer[8..]).write(payload)` — which copies `min(payload.len, buffer.len-8)`
bytes and never fails — and finally `write_checksum`.  The Rust function
returns `()` but panics (index out of range) when `buffer.len() < 8`; the
embedding returns `none` exactly in that case. -/
def EchoRequest.encode (p : Echo) (req : EchoRequest) (buffer : List Nat) :
    Option (List Nat) :=
  if buffer.length < 8 then none
  else
    some (write_checksum
      (writeRange 8 (req.payload.take (min req.payload.length (buffer.length - 8)))
        (writeRange 6 (beBytes2 req.seq_cnt)
          (writeRange 4 (beBytes2 req.ident)
            ((buffer.set 0 p.REQUEST_TYPE).set 1 p.REQUEST_CODE)))))

/-- `EchoReply::decode` (`src/ping/src/icmp/echo.rs`).  Note the conjunction:
the packet is rejected only when the type byte *and* the code byte both
mismatch (`type_ != P::REPLY_TYPE && code != P::REPLY_CODE`). -/
def EchoReply.decode (p : Echo) (buffer : List Nat) : Except DecodeError EchoReply :=
  if buffer.length < HEADER_SIZE then .error .invalidSize
  else if buffer.getD 0 0 ≠ p.REPLY_TYPE ∧ buffer.getD 1 0 ≠ p.REPLY_CODE then
    .error .invalidPacket
  else
    .ok { ident := buffer.getD 4 0 * 256 + buffer.getD 5 0
          seq_cnt := buffer.getD 6 0 * 256 + buffer.getD 7 0
          payload := buffer.drop HEADER_SIZE }

/-- The four constants of the `TimestampMessage` trait
(`src/ping/src/icmp/timestamp.rs`). -/
structure TimestampMessage where
  REQUEST_TYPE : Nat
  REQUEST_CODE : Nat
  REPLY_TYPE : Nat
  REPLY_CODE : Nat
deriving DecidableEq, Repr

/-- `impl TimestampMessage for IcmpV4`: 13 / 0 / 14 / 0. -/
def icmpV4Timestamp : TimestampMessage := ⟨13, 0, 14, 0⟩

/-- `Timestamp` (`src/ping/src/icmp/timestamp.rs`): a u32 value. -/
structure Timestamp where
  val : Nat
deriving DecidableEq, Repr

/-- `Timestamp::from_bytes`: `u32::from_le_bytes` of the four given bytes
(note: little-endian, although `to_be_bytes` is used on the encode side). -/
def Timestamp.from_bytes (bytes : List Nat) : Timestamp :=
  ⟨bytes.getD 0 0 + bytes.getD 1 0 * 256 + bytes.getD 2 0 * 65536 +
    bytes.getD 3 0 * 16777216⟩

/-- `TimestampReply` (`src/ping/src/icmp/timestamp.rs`). -/
structure TimestampReply where
  ident : Nat
  seq_cnt : Nat
  orig_timestamp : Timestamp
  recv_timestamp : Timestamp
  tran_timestamp : Timestamp
deriving DecidableEq, Repr

/-- `TimestampReply::decode` (`src/ping/src/icmp/timestamp.rs`).  The length
guard checks only `HEADER_SIZE` (8); the three timestamp reads slice
`buffer[8..12]`, `buffer[12..16]`, `buffer[16..20]`, which panic (out of
range) whenever `buffer.len() < 20`.  `none` models that panic. -/
def TimestampReply.decode (p : TimestampMessage) (buffer : List Nat) :
    Option (Except DecodeError TimestampReply) :=
  if buffer.length < HEADER_SIZE then some (.error .invalidSize)
  else if buffer.getD 0 0 ≠ p.REPLY_TYPE ∧ buffer.getD 1 0 ≠ p.REPLY_CODE then
    some (.error .invalidPacket)
  else if buffer.length < 20 then none
  else
    some (.ok
      { ident := buffer.getD 4 0 * 256 + buffer.getD 5 0
        seq_cnt := buffer.getD 6 0 * 256 + buffer.getD 7 0
        orig_timestamp := Timestamp.from_bytes ((buffer.drop 8).take 4)
        recv_timestamp := Timestamp.from_bytes ((buffer.drop 12).take 4)
        tran_timestamp := Timestamp.from_bytes ((buffer.drop 16).take 4) })

/-- `ip::Error` (`src/ping/src/ip.rs`). -/
inductive IpError where
  | tooSmallHeader
  | invalidHeaderSize
  | invalidVersion
  | unknownProtocol
deriving DecidableEq, Repr

/-- `MINIMUM_PACKET_SIZE` (`src/ping/src/ip.rs`). -/
def MINIMUM_PACKET_SIZE : Nat := 20

/-- `IpV4Protocol` (`src/ping/src/ip.rs`). -/
inductive IpV4Protocol where
  | icmp
deriving DecidableEq, Repr

/-- `IpV4Protocol::decode`: only protocol byte 1 (ICMP) is recognised. -/
def IpV4Protocol.decode (data : Nat) : Option IpV4Protocol :=
  if data = 1 then some .icmp else none

/-- `IpV4Packet` (`src/ping/src/ip.rs`). -/
structure IpV4Packet where
  protocol : IpV4Protocol
  ttl : Nat
  data : List Nat
deriving DecidableEq, Repr

/-- `IpV4Packet::decode` (`src/ping/src/ip.rs`).  For a byte value `b`,
`(b & 0xf0) >> 4 = b / 16 % 16` and `b & 0x0f = b % 16`. -/
def IpV4Packet.decode (data : List Nat) : Except IpError IpV4Packet :=
  if data.length < MINIMUM_PACKET_SIZE then .error .tooSmallHeader
  else if data.getD 0 0 / 16 % 16 ≠ 4 then .error .invalidVersion
  else if data.length < 4 * (data.getD 0 0 % 16) then .error .invalidHeaderSize
  else
    match IpV4Protocol.decode (data.getD 9 0) with
    | none => .error .unknownProtocol
    | some protocol =>
      .ok { protocol := protocol
            ttl := data.getD 8 0
            data := data.drop (4 * (data.getD 0 0 % 16)) }

/-- `Statistics` (`src/ping/src/app.rs`).  Durations are embedded as `Nat`
nanosecond counts (a `std::time::Duration` is an exact nanosecond value). -/
structure Statistics where
  total_packet_cnt : Nat
  lost_packet_cnt : Nat
  total_time : Nat
  max_time : Nat
  min_time : Nat
deriving DecidableEq, Repr

/-- `Statistics::new` (`src/ping/src/app.rs`): `min_time` is the sentinel
`Duration::new(u64::MAX >> 1, u32::MAX)`, i.e.
`(2^63 - 1) seconds + (2^32 - 1) nanoseconds`. -/
def Statistics.new : Statistics :=
  { total_packet_cnt := 0
    lost_packet_cnt := 0
    total_time := 0
    max_time := 0
    min_time := 9223372036854775807 * 1000000000 + 4294967295 }

/-- One iteration of the attempt loop in `PingApp::run`
(`src/ping/src/app.rs`, lines 169–192).  `some t` is a successful attempt
with round-trip time `t`; `none` is a lost attempt (`Err` branch), which
increments `lost_packet_cnt` and sets `max_time` to
`Duration::from_millis(9999)`. -/
def statStep (s : Statistics) (outcome : Option Nat) : Statistics :=
  match outcome with
  | some t =>
    { s with total_time := s.total_time + t
             max_time := max s.max_time t
             min_time := min s.min_time t }
  | none =>
    { s with lost_packet_cnt := s.lost_packet_cnt + 1
             max_time := 9999000000 }

/-- The statistics accumulated by the attempt loop of `PingApp::run`:
`Statistics::new` with `total_packet_cnt = self.cnt`, folded over the
per-attempt outcomes. -/
def loopStats (cnt : Nat) (outcomes : List (Option Nat)) : Statistics :=
  outcomes.foldl statStep { Statistics.new with total_packet_cnt := cnt }

/-- The final statistics of `PingApp::run`, including the post-loop
normalization (lines 194–198): if `min_time > max_time` then
`min_time = max_time` and `total_time = max_time * self.cnt`. -/
def runStats (cnt : Nat) (outcomes : List (Option Nat)) : Statistics :=
  let s := loopStats cnt outcomes
  if s.max_time < s.min_time then
    { s with min_time := s.max_time, total_time := s.max_time * cnt }
  else s

/-- One-step equation of the carry-folding loop. -/
theorem fold16_eq (n : Nat) :
    fold16 n = if 65536 ≤ n then fold16 (n % 65536 + n / 65536) else n := by
  rw [fold16]
  split <;> rfl

/-- Values below `2^16` are fixed points of the fold. -/
theorem fold16_of_lt {n : Nat} (h : n < 65536) : fold16 n = n := by
  rw [fold16_eq]
  simp [Nat.not_le.mpr h]

/-- The folded sum fits in 16 bits. -/
theorem fold16_lt (n : Nat) : fold16 n < 65536 := by
  induction n using Nat.strong_induction_on with
  | _ n ih =>
    rw [fold16_eq]
    split
    · exact ih _ (by omega)
    · omega

/-- Folding never increases the value. -/
theorem fold16_le (n : Nat) : fold16 n ≤ n := by
  induction n using Nat.strong_induction_on with
  | _ n ih =>
    rw [fold16_eq]
    split
    · exact le_trans (ih _ (by omega)) (by omega)
    · exact le_refl n

/-- Folding preserves the residue modulo `2^16 - 1` (end-around carry). -/
theorem fold16_mod (n : Nat) : fold16 n % 65535 = n % 65535 := by
  induction n using Nat.strong_induction_on with
  | _ n ih =>
    rw [fold16_eq]
    split
    · rw [ih _ (by omega)]
      have h : n = (n % 65536 + n / 65536) + n / 65536 * 65535 := by omega
      conv_rhs => rw [h]
      rw [Nat.add_mul_mod_self_right]
    · rfl

/-- Folding a positive value yields a positive value. -/
theorem fold16_pos {n : Nat} (h : 0 < n) : 0 < fold16 n := by
  induction n using Nat.strong_induction_on with
  | _ n ih =>
    rw [fold16_eq]
    split
    · exact ih _ (by omega) (by omega)
    · exact h

/-- Key bound: adding the one's complement of the folded sum to a 32-bit
value never overflows 32 bits.  This is why the `wrapping_add` accumulation
of the recomputed checksum does not wrap. -/
theorem fold16_compl_add_lt {n : Nat} (h : n < 4294967296) :
    n + (65535 - fold16 n) < 4294967296 := by
  by_cases hbig : 4294901760 < n
  · have hdiv : n / 65536 = 65535 := by omega
    have hl : 1 ≤ n % 65536 := by omega
    have h1 : fold16 n = fold16 (n % 65536 + 65535) := by
      rw [fold16_eq, if_pos (by omega), hdiv]
    have h2 : (n % 65536 + 65535) % 65536 = n % 65536 - 1 := by omega
    have h3 : (n % 65536 + 65535) / 65536 = 1 := by omega
    have h4 : fold16 (n % 65536 + 65535) = fold16 (n % 65536) := by
      rw [fold16_eq, if_pos (by omega), h2, h3]
      have h6 : n % 65536 - 1 + 1 = n % 65536 := by omega
      rw [h6]
    have h5 : fold16 (n % 65536) = n % 65536 := fold16_of_lt (by omega)
    omega
  · omega

/-- The wrapping u32 accumulation equals the plain sum reduced modulo `2^32`. -/
theorem wrapSum_eq (l : List Nat) : wrapSum l = l.sum % 4294967296 := by
  have go : ∀ (l : List Nat) (a : Nat),
      List.foldl (fun s w => (s + w) % 4294967296) (a % 4294967296) l =
        (a + l.sum) % 4294967296 := by
    intro l
    induction l with
    | nil => intro a; simp
    | cons w ws ih =>
      intro a
      simp only [List.foldl_cons, List.sum_cons]
      have h1 : (a % 4294967296 + w) % 4294967296 = (a + w) % 4294967296 := by omega
      rw [h1, ih (a + w)]
      omega
  have h0 := go l 0
  simpa [wrapSum] using h0

/-- Setting the element just past a prefix replaces the head of the suffix. -/
theorem set_append_len (pre : List Nat) (x y : Nat) (ts : List Nat) :
    (pre ++ y :: ts).set pre.length x = pre ++ x :: ts := by
  induction pre with
  | nil => rfl
  | cons a pre ih => simp [List.set, ih]

/-- `writeRange` starting right after a prefix overwrites the suffix in place:
the written bytes replace the first `s.length` bytes of `t`. -/
theorem writeRange_append (s : List Nat) : ∀ (t pre : List Nat), s.length ≤ t.length →
    writeRange pre.length s (pre ++ t) = pre ++ s ++ t.drop s.length := by
  induction s with
  | nil => intro t pre _; simp [writeRange]
  | cons x ss ih =>
    intro t pre h
    rcases t with _ | ⟨y, ts⟩
    · simp at h
    · simp only [writeRange]
      rw [set_append_len]
      have hx : pre ++ x :: ts = (pre ++ [x]) ++ ts := by simp
      have hlen : pre.length + 1 = (pre ++ [x]).length := by simp
      rw [hx, hlen, ih ts (pre ++ [x]) (by simpa using h)]
      simp

/-- A list of length at least 8 starts with eight explicit elements. -/
theorem exists_cons8 (l : List Nat) (h : 8 ≤ l.length) :
    ∃ a b c d e f g i t,
      l = a :: b :: c :: d :: e :: f :: g :: i :: t := by
  rcases l with _ | ⟨a, l⟩
  · simp at h
  rcases l with _ | ⟨b, l⟩
  · simp at h
  rcases l with _ | ⟨c, l⟩
  · simp at h
  rcases l with _ | ⟨d, l⟩
  · simp at h
  rcases l with _ | ⟨e, l⟩
  · simp at h
  rcases l with _ | ⟨f, l⟩
  · simp at h
  rcases l with _ | ⟨g, l⟩
  · simp at h
  rcases l with _ | ⟨i, t⟩
  · simp at h
  exact ⟨a, b, c, d, e, f, g, i, t, rfl⟩

/-- `write_checksum` on an explicit buffer: bytes 2 and 3 become the
big-endian bytes of the buffer's checksum. -/
theorem write_checksum_cons (a b c d : Nat) (r : List Nat) :
    write_checksum (a :: b :: c :: d :: r) =
      a :: b :: (get_checksum (a :: b :: c :: d :: r) / 256) ::
        (get_checksum (a :: b :: c :: d :: r) % 256) :: r := by
  simp [write_checksum, List.set]

/-- Characterization of `EchoRequest::encode` on a buffer of length ≥ 8:
the result is `write_checksum` of the filled frame, whose trailing part is
the first `min(payload.len, buffer.len - 8)` payload bytes followed by the
untouched remainder of the buffer. -/
theorem encode_char (p : Echo) (ident seq : Nat) (payload buffer : List Nat)
    (h : 8 ≤ buffer.length) :
    EchoRequest.encode p ⟨ident, seq, payload⟩ buffer =
      some (write_checksum (p.REQUEST_TYPE :: p.REQUEST_CODE ::
        buffer.getD 2 0 :: buffer.getD 3 0 ::
        (ident / 256 % 256) :: (ident % 256) :: (seq / 256 % 256) :: (seq % 256) ::
        (payload.take (min payload.length (buffer.length - 8)) ++
          (buffer.drop 8).drop (min payload.length (buffer.length - 8))))) := by
  obtain ⟨a, b, c, d, e, f, g, i, t, rfl⟩ := exists_cons8 buffer h
  have hlen : (a :: b :: c :: d :: e :: f :: g :: i :: t).length = t.length + 8 := by
    simp
  rw [EchoRequest.encode]
  rw [if_neg (by omega)]
  simp only [List.set, writeRange, beBytes2, hlen, Nat.add_sub_cancel]
  have hpre : (p.REQUEST_TYPE :: p.REQUEST_CODE :: c :: d ::
      (ident / 256 % 256) :: (ident % 256) :: (seq / 256 % 256) :: (seq % 256) :: t) =
      [p.REQUEST_TYPE, p.REQUEST_CODE, c, d,
        ident / 256 % 256, ident % 256, seq / 256 % 256, seq % 256] ++ t := rfl
  have h8 : (8 : Nat) =
      [p.REQUEST_TYPE, p.REQUEST_CODE, c, d,
        ident / 256 % 256, ident % 256, seq / 256 % 256, seq % 256].length := by simp
  rw [hpre, h8, writeRange_append _ t _ (by simp)]
  have hklen : (payload.take (min payload.length t.length)).length =
      min payload.length t.length := by simp
  rw [hklen]
  simp

/-- `EchoReply::decode` on an explicit frame whose type/code pair is not
doubly mismatched: the identifier and sequence are recovered big-endian and
the payload is the remainder. -/
theorem decode_cons (p : Echo) (t0 c0 x y i1 i2 s1 s2 : Nat) (rest : List Nat)
    (hok : ¬(t0 ≠ p.REPLY_TYPE ∧ c0 ≠ p.REPLY_CODE)) :
    EchoReply.decode p (t0 :: c0 :: x :: y :: i1 :: i2 :: s1 :: s2 :: rest) =
      .ok ⟨i1 * 256 + i2, s1 * 256 + s2, rest⟩ := by
  rw [EchoReply.decode]
  rw [if_neg (by simp [HEADER_SIZE])]
  rw [if_neg (by simpa using hok)]
  simp [HEADER_SIZE]

/-- Claim C1: the claim states that `EchoReply::decode` fails with
`InvalidPacket` whenever the type byte differs from the variant's reply
type, regardless of the code byte.  The code instead rejects only when type
*and* code both mismatch (`&&` instead of `||`), so a frame with a wrong
type byte but a matching code byte (0) is accepted: the code contradicts
the documented decode policy.  This theorem exhibits the divergence for
both variants. -/
theorem claim1_type_mismatch_accepted :
    List.getD [8, 0, 0, 0, 0, 0, 0, 0] 0 0 ≠ icmpV4.REPLY_TYPE ∧
    EchoReply.decode icmpV4 [8, 0, 0, 0, 0, 0, 0, 0] = .ok ⟨0, 0, []⟩ ∧
    List.getD [130, 0, 0, 0, 0, 0, 0, 0] 0 0 ≠ icmpV6.REPLY_TYPE ∧
    EchoReply.decode icmpV6 [130, 0, 0, 0, 0, 0, 0, 0] = .ok ⟨0, 0, []⟩ :=
  ⟨by decide, rfl, by decide, rfl⟩

/-- Claim C2: for both protocol variants and payload lengths 0, 1, 16, 1472,
encoding into a buffer of size `payload.length + 8` and decoding with the
same variant succeeds and returns the original identifier, sequence and
payload.  (Decode succeeds because the code byte 0 matches the reply code,
which bypasses the type-byte check.) -/
theorem claim2_roundtrip (p : Echo) (ident seq : Nat) (payload buffer : List Nat)
    (hp : p = icmpV4 ∨ p = icmpV6) (hi : ident < 65536) (hs : seq < 65536)
    (_hl : payload.length = 0 ∨ payload.length = 1 ∨ payload.length = 16 ∨
      payload.length = 1472)
    (hb : buffer.length = payload.length + 8) :
    ∃ out, EchoRequest.encode p ⟨ident, seq, payload⟩ buffer = some out ∧
      EchoReply.decode p out = .ok ⟨ident, seq, payload⟩ := by
  have h8 : 8 ≤ buffer.length := by omega
  rw [encode_char p ident seq payload buffer h8]
  have hk : min payload.length (buffer.length - 8) = payload.length := by omega
  rw [hk]
  have hdl : (buffer.drop 8).length = payload.length := by simp; omega
  have hd : (buffer.drop 8).drop payload.length = [] := by
    apply List.drop_eq_nil_of_le
    omega
  rw [List.take_length, hd, List.append_nil]
  refine ⟨_, rfl, ?_⟩
  rw [write_checksum_cons]
  rw [decode_cons p _ _ _ _ _ _ _ _ _
    (by rcases hp with rfl | rfl <;> simp [icmpV4, icmpV6])]
  have h1 : ident / 256 % 256 * 256 + ident % 256 = ident := by omega
  have h2 : seq / 256 % 256 * 256 + seq % 256 = seq := by omega
  rw [h1, h2]

/-- Witness for C2 at a concrete input: ICMPv4, identifier 258, sequence 5,
payload `[1]`, buffer of nine zero bytes. -/
theorem claim2_roundtrip_witness :
    ∃ out, EchoRequest.encode icmpV4 ⟨258, 5, [1]⟩ [0, 0, 0, 0, 0, 0, 0, 0, 0] =
        some out ∧
      EchoReply.decode icmpV4 out = .ok ⟨258, 5, [1]⟩ :=
  claim2_roundtrip icmpV4 258 5 [1] [0, 0, 0, 0, 0, 0, 0, 0, 0]
    (Or.inl rfl) (by decide) (by decide) (by decide) (by decide)

/-- Core arithmetic fact behind the Internet checksum: if a frame's word sum
(with the checksum word zero) is `s`, writing the complement of the folded
wrapped sum as the checksum word makes the recomputed checksum zero. -/
theorem checksum_core (s : Nat) :
    (4294967295 - fold16 ((s + (65535 - fold16 (s % 4294967296))) % 4294967296)) %
      65536 = 0 := by
  set S0 := s % 4294967296 with hS0
  have hS0lt : S0 < 4294967296 := by omega
  set F0 := fold16 S0 with hF0
  have hF0lt : F0 < 65536 := fold16_lt S0
  have hF0le : F0 ≤ S0 := fold16_le S0
  have hF0mod : F0 % 65535 = S0 % 65535 := fold16_mod S0
  have hnw : S0 + (65535 - F0) < 4294967296 := fold16_compl_add_lt hS0lt
  have hs1 : (s + (65535 - F0)) % 4294967296 = S0 + (65535 - F0) := by omega
  rw [hs1]
  set S1 := S0 + (65535 - F0) with hS1
  set F1 := fold16 S1 with hF1
  have hF1lt : F1 < 65536 := fold16_lt S1
  have hF1mod : F1 % 65535 = S1 % 65535 := fold16_mod S1
  have hS1pos : 0 < S1 := by omega
  have hF1pos : 0 < F1 := by rw [hF1]; exact fold16_pos hS1pos
  have hS1mod : S1 % 65535 = 0 := by omega
  have hF1eq : F1 = 65535 := by omega
  rw [hF1eq]

/-- If the checksum field (bytes 2–3) of a frame is zero, then after
`write_checksum` the recomputed checksum of the whole frame is zero. -/
theorem get_checksum_write_zero (a b : Nat) (r : List Nat) :
    get_checksum (write_checksum (a :: b :: 0 :: 0 :: r)) = 0 := by
  rw [write_checksum_cons]
  set g := get_checksum (a :: b :: 0 :: 0 :: r) with hgdef
  have ht0 : toWords (a :: b :: 0 :: 0 :: r) = (a * 256 + b) :: 0 :: toWords r := by
    simp [toWords]
  have ht1 : toWords (a :: b :: g / 256 :: g % 256 :: r) =
      (a * 256 + b) :: (g / 256 * 256 + g % 256) :: toWords r := by
    simp [toWords]
  have hgword : g / 256 * 256 + g % 256 = g := by omega
  have hsum0 : (toWords (a :: b :: 0 :: 0 :: r)).sum =
      a * 256 + b + (toWords r).sum := by
    rw [ht0]; simp
  have hsum1 : (toWords (a :: b :: g / 256 :: g % 256 :: r)).sum =
      a * 256 + b + (toWords r).sum + g := by
    rw [ht1, hgword]; simp [List.sum_cons]; omega
  have hgval : g = 65535 -
      fold16 ((a * 256 + b + (toWords r).sum) % 4294967296) := by
    rw [hgdef, get_checksum, wrapSum_eq, hsum0]
    have := fold16_lt ((a * 256 + b + (toWords r).sum) % 4294967296)
    omega
  rw [get_checksum, wrapSum_eq, hsum1, hgval]
  exact checksum_core (a * 256 + b + (toWords r).sum)

/-- Claim C3 (amended): for every request and every buffer of length
`payload.length + 8` *whose checksum field (bytes 2–3) is initially zero*,
encoding succeeds and the recomputed Internet checksum of the full encoded
buffer is zero.  (The code computes the checksum over the buffer as-is, so
the initial bytes 2–3 must be zero for the stated property; the claim's
"computed with that field zeroed" is not performed by `write_checksum`.) -/
theorem claim3_checksum_zero (p : Echo) (ident seq : Nat)
    (payload buffer : List Nat)
    (hb : buffer.length = payload.length + 8)
    (h2 : buffer.getD 2 0 = 0) (h3 : buffer.getD 3 0 = 0) :
    ∃ out, EchoRequest.encode p ⟨ident, seq, payload⟩ buffer = some out ∧
      get_checksum out = 0 := by
  have h8 : 8 ≤ buffer.length := by omega
  rw [encode_char p ident seq payload buffer h8, h2, h3]
  exact ⟨_, rfl, get_checksum_write_zero _ _ _⟩

/-- Witness for C3 (amended) at a concrete input: ICMPv4, identifier 1,
sequence 2, payload `[5]`, buffer of nine zero bytes. -/
theorem claim3_checksum_zero_witness :
    ∃ out, EchoRequest.encode icmpV4 ⟨1, 2, [5]⟩ [0, 0, 0, 0, 0, 0, 0, 0, 0] =
        some out ∧ get_checksum out = 0 :=
  claim3_checksum_zero icmpV4 1 2 [5] [0, 0, 0, 0, 0, 0, 0, 0, 0]
    (by decide) (by decide) (by decide)

/-- Claim C3 counterexample: with a buffer whose bytes 2–3 are initially
`0xAB 0xCD`, encode leaves them in place while computing the checksum, and
the recomputed checksum of the encoded buffer is 43981 (= 0xABCD), not 0. -/
theorem claim3_counterexample :
    EchoRequest.encode icmpV4 ⟨0, 0, []⟩ [0, 0, 171, 205, 0, 0, 0, 0] =
      some [8, 0, 76, 50, 0, 0, 0, 0] ∧
    get_checksum [8, 0, 76, 50, 0, 0, 0, 0] ≠ 0 := by
  have e0 : wrapSum (toWords [8, 0, 171, 205, 0, 0, 0, 0]) = 46029 := rfl
  have e1 : get_checksum [8, 0, 171, 205, 0, 0, 0, 0] = 19506 := by
    rw [get_checksum, e0, fold16_of_lt (by norm_num)]
  have e2 : wrapSum (toWords [8, 0, 76, 50, 0, 0, 0, 0]) = 21554 := rfl
  have e3 : get_checksum [8, 0, 76, 50, 0, 0, 0, 0] = 43981 := by
    rw [get_checksum, e2, fold16_of_lt (by norm_num)]
  constructor
  · have henc : EchoRequest.encode icmpV4 ⟨0, 0, []⟩ [0, 0, 171, 205, 0, 0, 0, 0] =
        some (write_checksum [8, 0, 171, 205, 0, 0, 0, 0]) := rfl
    rw [henc, write_checksum, e1]
    rfl
  · rw [e3]
    norm_num

/-- Claim C4 counterexample: with an 8-byte buffer and a 1-byte payload (which
does not fit in `buffer.len() - 8 = 0` bytes), `EchoRequest::encode` does not
fail with `InvalidSize` — it returns normally, having copied none of the
payload.  (The Rust `encode` returns `()`; `Write::write` on a byte slice
never errs, so the `expect` never fires and no error path exists.) -/
theorem claim4_counterexample :
    (EchoRequest.encode icmpV4 ⟨0, 0, [7]⟩ [0, 0, 0, 0, 0, 0, 0, 0]).isSome = true ∧
    EchoRequest.encode icmpV4 ⟨0, 0, [7]⟩ [0, 0, 0, 0, 0, 0, 0, 0] =
      some (write_checksum [8, 0, 0, 0, 0, 0, 0, 0]) :=
  ⟨rfl, rfl⟩

/-- Claim C4 (amended): for every buffer of length at least 8 and every
payload strictly longer than `buffer.len() - 8`, `EchoRequest::encode` does
not fail: it returns normally, silently truncating the payload to the first
`buffer.len() - 8` bytes. -/
theorem claim4_encode_truncates (p : Echo) (ident seq : Nat)
    (payload buffer : List Nat)
    (h8 : 8 ≤ buffer.length) (hover : buffer.length - 8 < payload.length) :
    ∃ out, EchoRequest.encode p ⟨ident, seq, payload⟩ buffer = some out ∧
      out.length = buffer.length ∧
      out.drop 8 = payload.take (buffer.length - 8) := by
  rw [encode_char p ident seq payload buffer h8]
  have hk : min payload.length (buffer.length - 8) = buffer.length - 8 := by omega
  rw [hk]
  have hdrop : (buffer.drop 8).drop (buffer.length - 8) = [] := by
    apply List.drop_eq_nil_of_le
    simp
  rw [hdrop, List.append_nil]
  refine ⟨_, rfl, ?_, ?_⟩
  · rw [write_checksum_cons]
    simp
    omega
  · rw [write_checksum_cons]
    simp

/-- Witness for C4 (amended) at a concrete input: 9-byte buffer, 2-byte
payload; the encoded frame keeps only the first payload byte. -/
theorem claim4_encode_truncates_witness :
    ∃ out, EchoRequest.encode icmpV4 ⟨3, 4, [9, 9]⟩ [0, 0, 0, 0, 0, 0, 0, 0, 0] =
        some out ∧
      out.length = 9 ∧ out.drop 8 = [9] :=
  claim4_encode_truncates icmpV4 3 4 [9, 9] [0, 0, 0, 0, 0, 0, 0, 0, 0]
    (by decide) (by decide)

/-- Claim C9: for every buffer of length at least 8 and payload strictly
longer than `buffer.len() - 8`, `EchoRequest::encode` returns normally (no
panic, no error): it writes the header fields, copies only the first
`buffer.len() - 8` payload bytes, and finally writes the checksum over the
filled frame. -/
theorem claim9_encode_truncation (p : Echo) (ident seq : Nat)
    (payload buffer : List Nat)
    (h8 : 8 ≤ buffer.length) (hover : buffer.length - 8 < payload.length) :
    EchoRequest.encode p ⟨ident, seq, payload⟩ buffer =
      some (write_checksum (p.REQUEST_TYPE :: p.REQUEST_CODE ::
        buffer.getD 2 0 :: buffer.getD 3 0 ::
        (ident / 256 % 256) :: (ident % 256) :: (seq / 256 % 256) :: (seq % 256) ::
        payload.take (buffer.length - 8))) := by
  rw [encode_char p ident seq payload buffer h8]
  have hk : min payload.length (buffer.length - 8) = buffer.length - 8 := by omega
  rw [hk]
  have hdrop : (buffer.drop 8).drop (buffer.length - 8) = [] := by
    apply List.drop_eq_nil_of_le
    simp
  rw [hdrop, List.append_nil]

/-- Witness for C9 at a concrete input: 9-byte zero buffer, 3-byte payload;
only the first payload byte survives and the call returns normally. -/
theorem claim9_encode_truncation_witness :
    EchoRequest.encode icmpV4 ⟨0, 0, [1, 2, 3]⟩ [0, 0, 0, 0, 0, 0, 0, 0, 0] =
      some (write_checksum [8, 0, 0, 0, 0, 0, 0, 0, 1]) := by
  have h := claim9_encode_truncation icmpV4 0 0 [1, 2, 3]
    [0, 0, 0, 0, 0, 0, 0, 0, 0] (by decide) (by decide)
  simpa using h

/-- Claim C5: full case analysis of `IpV4Packet::decode` — `TooSmallHeader`
for buffers under 20 bytes, then `InvalidVersion` when the high nibble of
byte 0 is not 4, then `InvalidHeaderSize` when the buffer is shorter than
4 × the low nibble, then `UnknownProtocol` when byte 9 is not 1, else
success with `protocol = Icmp`, `ttl = byte 8`, `data = buffer[4·nibble..]`;
and the concrete 20-byte instance of the claim. -/
theorem claim5_ipv4_decode (data : List Nat) :
    (data.length < 20 → IpV4Packet.decode data = .error .tooSmallHeader) ∧
    (20 ≤ data.length → data.getD 0 0 / 16 % 16 ≠ 4 →
      IpV4Packet.decode data = .error .invalidVersion) ∧
    (20 ≤ data.length → data.getD 0 0 / 16 % 16 = 4 →
      data.length < 4 * (data.getD 0 0 % 16) →
      IpV4Packet.decode data = .error .invalidHeaderSize) ∧
    (20 ≤ data.length → data.getD 0 0 / 16 % 16 = 4 →
      4 * (data.getD 0 0 % 16) ≤ data.length → data.getD 9 0 ≠ 1 →
      IpV4Packet.decode data = .error .unknownProtocol) ∧
    (20 ≤ data.length → data.getD 0 0 / 16 % 16 = 4 →
      4 * (data.getD 0 0 % 16) ≤ data.length → data.getD 9 0 = 1 →
      IpV4Packet.decode data =
        .ok ⟨.icmp, data.getD 8 0, data.drop (4 * (data.getD 0 0 % 16))⟩) ∧
    IpV4Packet.decode
        [69, 0, 0, 0, 0, 0, 0, 0, 64, 1, 0, 0, 0, 0, 0, 0, 0, 0, 0, 0] =
      .ok ⟨.icmp, 64, []⟩ := by
  refine ⟨?_, ?_, ?_, ?_, ?_, rfl⟩
  · intro h
    rw [IpV4Packet.decode, if_pos (by simpa [MINIMUM_PACKET_SIZE] using h)]
  · intro h hv
    rw [IpV4Packet.decode, if_neg (by simp [MINIMUM_PACKET_SIZE]; omega),
      if_pos hv]
  · intro h hv hs
    rw [IpV4Packet.decode, if_neg (by simp [MINIMUM_PACKET_SIZE]; omega),
      if_neg (by omega), if_pos hs]
  · intro h hv hs hp
    rw [IpV4Packet.decode, if_neg (by simp [MINIMUM_PACKET_SIZE]; omega),
      if_neg (by omega), if_neg (by omega), IpV4Protocol.decode, if_neg hp]
  · intro h hv hs hp
    rw [IpV4Packet.decode, if_neg (by simp [MINIMUM_PACKET_SIZE]; omega),
      if_neg (by omega), if_neg (by omega), IpV4Protocol.decode, if_pos hp]

/-- Witness for C5: each branch of the case analysis exercised at a concrete
buffer. -/
theorem claim5_ipv4_decode_witness :
    IpV4Packet.decode (List.replicate 19 0) = .error .tooSmallHeader ∧
    IpV4Packet.decode (5 :: List.replicate 19 0) = .error .invalidVersion ∧
    IpV4Packet.decode (79 :: List.replicate 19 0) = .error .invalidHeaderSize ∧
    IpV4Packet.decode (69 :: List.replicate 19 0) = .error .unknownProtocol ∧
    IpV4Packet.decode
        [69, 0, 0, 0, 0, 0, 0, 0, 64, 1, 0, 0, 0, 0, 0, 0, 0, 0, 0, 0] =
      .ok ⟨.icmp, 64, []⟩ :=
  ⟨(claim5_ipv4_decode _).1 (by decide),
   (claim5_ipv4_decode _).2.1 (by decide) (by decide),
   (claim5_ipv4_decode _).2.2.1 (by decide) (by decide) (by decide),
   (claim5_ipv4_decode _).2.2.2.1 (by decide) (by decide) (by decide) (by decide),
   (claim5_ipv4_decode _).2.2.2.2.1 (by decide) (by decide) (by decide) (by decide)⟩

/-- Claim C10: `IpV4Packet::decode` imposes no 20-byte minimum on the parsed
header length itself: whenever the buffer has at least 20 bytes, the version
nibble is 4, byte 9 is 1, and `4·nibble ≤ buffer.len()`, decoding succeeds
with `data = buffer[4·nibble..]` — even when `4·nibble < 20`. -/
theorem claim10_short_header (data : List Nat)
    (h20 : 20 ≤ data.length) (hv : data.getD 0 0 / 16 % 16 = 4)
    (hp : data.getD 9 0 = 1) (hh : 4 * (data.getD 0 0 % 16) ≤ data.length) :
    IpV4Packet.decode data =
      .ok ⟨.icmp, data.getD 8 0, data.drop (4 * (data.getD 0 0 % 16))⟩ := by
  rw [IpV4Packet.decode, if_neg (by simp [MINIMUM_PACKET_SIZE]; omega),
    if_neg (by omega), if_neg (by omega), IpV4Protocol.decode, if_pos hp]

/-- Witness for C10: byte 0 = `0x40` (version 4, header-length nibble 0), so
the decoded `data` is the entire 20-byte buffer, header included. -/
theorem claim10_short_header_witness :
    IpV4Packet.decode
        [64, 0, 0, 0, 0, 0, 0, 0, 0, 1, 0, 0, 0, 0, 0, 0, 0, 0, 0, 0] =
      .ok ⟨.icmp, 0,
        [64, 0, 0, 0, 0, 0, 0, 0, 0, 1, 0, 0, 0, 0, 0, 0, 0, 0, 0, 0]⟩ :=
  claim10_short_header _ (by decide) (by decide) (by decide) (by decide)

/-- `statStep` never changes `total_packet_cnt`. -/
theorem statStep_total (s : Statistics) (o : Option Nat) :
    (statStep s o).total_packet_cnt = s.total_packet_cnt := by
  cases o <;> rfl

/-- The attempt loop never changes `total_packet_cnt`. -/
theorem foldl_statStep_total (outcomes : List (Option Nat)) :
    ∀ s : Statistics,
      (outcomes.foldl statStep s).total_packet_cnt = s.total_packet_cnt := by
  induction outcomes with
  | nil => intro s; rfl
  | cons o os ih => intro s; rw [List.foldl_cons, ih, statStep_total]

/-- `total_packet_cnt` of the accumulated statistics is the configured count. -/
theorem loopStats_total (cnt : Nat) (outcomes : List (Option Nat)) :
    (loopStats cnt outcomes).total_packet_cnt = cnt :=
  foldl_statStep_total outcomes _

/-- Claim C6 counterexample: for the attempts `[50 ms success, lost,
30 ms success]` with count 3, `max_time` is not 50 ms — the lost attempt
overwrote it with the fixed 9999 ms marker. -/
theorem claim6_counterexample :
    (runStats 3 [some 50000000, none, some 30000000]).max_time ≠ 50000000 := by
  decide

/-- Claim C6 (amended): for the attempts `[50 ms success, lost, 30 ms
success]` with count 3, the aggregator yields `lost_packet_cnt = 1`,
`min_time = 30 ms`, `total_time = 80 ms`, a loss percentage of about 33.3 %,
and `max_time = 9999 ms` (the error branch of the loop sets `max_time` to
the fixed marker `Duration::from_millis(9999)`, overwriting the 50 ms
maximum), rather than the claimed 50 ms. -/
theorem claim6_stats :
    runStats 3 [some 50000000, none, some 30000000] =
      { total_packet_cnt := 3, lost_packet_cnt := 1, total_time := 80000000,
        max_time := 9999000000, min_time := 30000000 } ∧
    (333 : ℚ) / 10 <
      ((runStats 3 [some 50000000, none, some 30000000]).lost_packet_cnt : ℚ) /
        ((runStats 3 [some 50000000, none, some 30000000]).total_packet_cnt : ℚ) *
        100 ∧
    ((runStats 3 [some 50000000, none, some 30000000]).lost_packet_cnt : ℚ) /
        ((runStats 3 [some 50000000, none, some 30000000]).total_packet_cnt : ℚ) *
        100 < (334 : ℚ) / 10 := by
  have hl : (runStats 3 [some 50000000, none, some 30000000]).lost_packet_cnt = 1 := by
    decide
  have ht : (runStats 3 [some 50000000, none, some 30000000]).total_packet_cnt = 3 := by
    decide
  refine ⟨by decide, ?_, ?_⟩ <;> rw [hl, ht] <;> norm_num

/-- Claim C7: if after the loop `min_time > max_time` (total loss), the
normalization sets `min_time = max_time` and
`total_time = max_time * total_packet_cnt`; and for count 2 with both
attempts lost, `min_time = max_time`, the reported average
`total_time / total_packet_cnt` equals `max_time`, and `max_time` is not the
sentinel. -/
theorem claim7_normalization :
    (∀ (cnt : Nat) (outcomes : List (Option Nat)),
      outcomes.length = cnt →
      (loopStats cnt outcomes).max_time < (loopStats cnt outcomes).min_time →
      (runStats cnt outcomes).min_time = (loopStats cnt outcomes).max_time ∧
      (runStats cnt outcomes).total_time =
        (loopStats cnt outcomes).max_time *
          (loopStats cnt outcomes).total_packet_cnt) ∧
    ((runStats 2 [none, none]).min_time = (runStats 2 [none, none]).max_time ∧
     (runStats 2 [none, none]).total_time /
         (runStats 2 [none, none]).total_packet_cnt =
       (runStats 2 [none, none]).max_time ∧
     (runStats 2 [none, none]).max_time ≠ Statistics.new.min_time) := by
  constructor
  · intro cnt outcomes _hlen hgt
    have hcnt : (loopStats cnt outcomes).total_packet_cnt = cnt :=
      loopStats_total cnt outcomes
    simp only [runStats]
    rw [if_pos hgt]
    exact ⟨rfl, by rw [hcnt]⟩
  · exact ⟨by decide, by decide, by decide⟩

/-- Witness for C7 at the concrete total-loss run of count 2. -/
theorem claim7_normalization_witness :
    (runStats 2 [none, none]).min_time = (loopStats 2 [none, none]).max_time ∧
    (runStats 2 [none, none]).total_time =
      (loopStats 2 [none, none]).max_time *
        (loopStats 2 [none, none]).total_packet_cnt :=
  claim7_normalization.1 2 [none, none] (by decide) (by decide)

/-- Claim C8: the claim states that `TimestampReply::decode` errors for every
buffer shorter than 20 bytes and reads the three timestamps big-endian.  The
code checks only `HEADER_SIZE` (8): a 12-byte buffer reaches the slice
`buffer[12..16]`, which panics (modelled as `none`) instead of returning an
error; and the timestamps are read with `u32::from_le_bytes` (little-endian),
so the bytes `[1,0,0,0]` decode to 1 rather than the big-endian `2^24`. -/
theorem claim8_timestamp_decode :
    TimestampReply.decode icmpV4Timestamp (List.replicate 12 0) = none ∧
    TimestampReply.decode icmpV4Timestamp
        [14, 0, 0, 0, 0, 0, 0, 0, 1, 0, 0, 0, 0, 0, 0, 1, 2, 0, 0, 0] =
      some (.ok ⟨0, 0, ⟨1⟩, ⟨16777216⟩, ⟨2⟩⟩) :=
  ⟨rfl, rfl⟩
